import Mathlib

/-!
Verification of the file abstraction layer of `os/src/fs/inode.rs`:
open-file handles (`OSInode`), open-mode flag decoding (`OpenFlags`),
the `open_file` / `link_file` / `unlink_file` operations and the
process-wide Link-Count Table (`INODE_LINK_MAP`, a `BTreeMap<u32,u32>`).

The on-disk filesystem engine (easy-fs) is an external collaborator of
this layer; its interface (`find`, `create`, `create_link`, `unlink`,
`clear`, `read_at`, `write_at`, `get_inode`, `is_dir`) is modelled from
the specification of that interface, while everything in `inode.rs`
itself is translated statement by statement.
-/

namespace RcoreFs

/-! ## u32 wrapping arithmetic

Link counts are `u32`; the kernel is built in release mode, so `u32`
overflow wraps modulo `2^32`. -/

/-- The `u32` modulus. -/
def U32MOD : Nat := 2 ^ 32

/-- `c + 1` on a `u32` (wrapping). -/
def u32add1 (c : Nat) : Nat := (c + 1) % U32MOD

/-- `c - 1` on a `u32` (wrapping): `0 - 1` gives `2^32 - 1`. -/
def u32sub1 (c : Nat) : Nat := (c + (U32MOD - 1)) % U32MOD

/-! ## The Link-Count Table: a `BTreeMap<u32, u32>` model

An association list with unique keys; `mapInsert` replaces the value of
an existing key, `mapRemove` deletes a key's entry. -/

/-- `BTreeMap::get` (cloned): look a key up. -/
def mapGet : List (Nat × Nat) → Nat → Option Nat
  | [], _ => none
  | (k, v) :: rest, key => if k = key then some v else mapGet rest key

/-- `BTreeMap::insert`: replace the value at the key, or add the entry. -/
def mapInsert : List (Nat × Nat) → Nat → Nat → List (Nat × Nat)
  | [], key, v => [(key, v)]
  | (k, w) :: rest, key, v =>
      if k = key then (key, v) :: rest else (k, w) :: mapInsert rest key v

/-- `BTreeMap::remove`: drop the entry at the key, if present. -/
def mapRemove : List (Nat × Nat) → Nat → List (Nat × Nat)
  | [], _ => []
  | (k, w) :: rest, key =>
      if k = key then rest else (k, w) :: mapRemove rest key

theorem mapGet_mapInsert_self (m : List (Nat × Nat)) (k v : Nat) :
    mapGet (mapInsert m k v) k = some v := by
  induction m with
  | nil => simp [mapInsert, mapGet]
  | cons hd tl ih =>
      obtain ⟨k', v'⟩ := hd
      by_cases h : k' = k
      · simp [mapInsert, mapGet, h]
      · simp [mapInsert, mapGet, h, ih]

theorem mapGet_mapInsert_ne (m : List (Nat × Nat)) (k v k' : Nat) (h : k ≠ k') :
    mapGet (mapInsert m k v) k' = mapGet m k' := by
  induction m with
  | nil => simp [mapInsert, mapGet, h]
  | cons hd tl ih =>
      obtain ⟨a, b⟩ := hd
      by_cases ha : a = k
      · subst ha
        simp [mapInsert, mapGet, h]
      · simp [mapInsert, mapGet, ha, ih]

/-! ## The filesystem engine (external collaborator) -/

/-- Modelled from the spec: the filesystem-engine state visible to this
layer.  The engine stores directory entries under the root
(`resolve`, the engine's `find`), a logical size per physical inode id
(`size`, reset by `clear`), a directory/regular-file classification
(`isDir`), a removed flag per name (`removed`, set by the engine's
`unlink`), and an allocation oracle `createNew` giving the inode id a
successful `create` of a name would assign (`none` when the engine
fails the creation). -/
structure Engine where
  resolve : String → Option Nat
  size : Nat → Nat
  isDir : Nat → Bool
  removed : String → Bool
  createNew : String → Option Nat

/-- Modelled from the spec: the engine's `clear` resets the logical size
of the inode to zero. -/
def Engine.clear (e : Engine) (id : Nat) : Engine :=
  { e with size := fun i => if i = id then 0 else e.size i }

/-- Modelled from the spec: the engine's `create` registers the name as
a fresh inode of size zero on success (id chosen by the engine), and
leaves no partial state behind on failure. -/
def Engine.create (e : Engine) (name : String) : Option (Nat × Engine) :=
  match e.createNew name with
  | none => none
  | some id =>
      some (id,
        { e with
          resolve := fun n => if n = name then some id else e.resolve n,
          size := fun i => if i = id then 0 else e.size i })

/-- Modelled from the spec: the engine's `create_link` makes the new
name a directory entry pointing at the same physical inode as the
target id, so the returned inode's id equals the target id; the engine
rejects creation over an already-existing name. -/
def Engine.create_link (e : Engine) (name : String) (targetId : Nat) :
    Option (Nat × Engine) :=
  match e.resolve name with
  | some _ => none
  | none =>
      some (targetId,
        { e with resolve := fun n => if n = name then some targetId else e.resolve n })

/-- Modelled from the spec: the engine's `unlink` flags the directory
entry for the name as removed; reclamation of the physical inode is
deferred to the engine's own mechanisms. -/
def Engine.unlink (e : Engine) (name : String) : Engine :=
  { e with removed := fun n => if n = name then true else e.removed n }

/-- The state this layer acts on: the engine plus the process-wide
Link-Count Table `INODE_LINK_MAP : BTreeMap<u32, u32>`. -/
structure SysState where
  engine : Engine
  linkMap : List (Nat × Nat)

/-! ## OSInode, Stat and OpenFlags -/

/-- `StatMode`: directory or regular file. -/
inductive StatMode where
  | DIR : StatMode
  | FILE : StatMode
deriving DecidableEq

/-- The `Stat` record filled in by `OSInode::stat`. -/
structure Stat where
  dev : Nat
  ino : Nat
  mode : StatMode
  nlink : Nat
  pad : List Nat
deriving DecidableEq

/-- `OSInode`: readable/writable fixed at open time, a byte cursor
`offset`, and the shared physical inode reference (identified here by
its stable inode id). -/
structure OSInode where
  readable : Bool
  writable : Bool
  offset : Nat
  inode : Nat
deriving DecidableEq

/-- `OSInode::new`: wraps an inode with cursor 0. -/
def OSInode.new (r w : Bool) (id : Nat) : OSInode :=
  { readable := r, writable := w, offset := 0, inode := id }

namespace OpenFlags

/-- `OpenFlags::RDONLY = 0`. -/
def RDONLY : Nat := 0

/-- `OpenFlags::WRONLY = 1 << 0`. -/
def WRONLY : Nat := 1 <<< 0

/-- `OpenFlags::RDWR = 1 << 1`. -/
def RDWR : Nat := 1 <<< 1

/-- `OpenFlags::CREATE = 1 << 9`. -/
def CREATE : Nat := 1 <<< 9

/-- `OpenFlags::TRUNC = 1 << 10`. -/
def TRUNC : Nat := 1 <<< 10

/-- `bitflags` `contains`: all bits of `f` are present in `fl`. -/
def hasFlag (fl f : Nat) : Bool := fl &&& f == f

/-- `OpenFlags::read_write`: decode the flag bits to
(readable, writable); `is_empty` means all bits zero. -/
def read_write (fl : Nat) : Bool × Bool :=
  if fl = 0 then (true, false)
  else if hasFlag fl WRONLY then (false, true)
  else (true, true)

end OpenFlags

/-- `OSInode::stat`: device 0, the inode's id, a directory/file mode
from the engine's classification, and the link count read from the
Link-Count Table (default 1 when absent). -/
def OSInode.stat (st : SysState) (f : OSInode) : Option Stat :=
  some
    { dev := 0
      ino := f.inode
      mode := if st.engine.isDir f.inode then StatMode.DIR else StatMode.FILE
      nlink := (mapGet st.linkMap f.inode).getD 1
      pad := List.replicate 7 0 }

/-! ## The read/write loops of `File for OSInode`

The engine's byte-transfer calls are abstracted by an oracle:
`read_at off len` (respectively `write_at off len`) is the byte count
the engine reports for a transfer of a slice of length `len` at file
offset `off`.  A scatter/gather buffer is the list of its slice
lengths. -/

/-- The loop of `OSInode::read`: per destination slice in order, read at
the current offset, stop as soon as the engine reports zero bytes,
otherwise advance the offset and accumulate.  Returns the final offset,
the total, and the trace of per-slice byte counts actually used. -/
def readLoop (read_at : Nat → Nat → Nat) (off : Nat) :
    List Nat → Nat × Nat × List Nat
  | [] => (off, 0, [])
  | len :: rest =>
      let r := read_at off len
      if r = 0 then (off, 0, [])
      else
        let next := readLoop read_at (off + r) rest
        (next.1, r + next.2.1, r :: next.2.2)

/-- `OSInode::read`: run the loop from the handle's cursor; the cursor
becomes the loop's final offset and the total is returned. -/
def OSInode.read (read_at : Nat → Nat → Nat) (f : OSInode) (bufs : List Nat) :
    Nat × OSInode :=
  let next := readLoop read_at f.offset bufs
  (next.2.1, { f with offset := next.1 })

/-- The loop of `OSInode::write`: per source slice in order, write at
the current offset; `assert_eq!(write_size, slice.len())` makes a short
write fatal, modelled as `none`; otherwise advance the offset and
accumulate. -/
def writeLoop (write_at : Nat → Nat → Nat) (off : Nat) :
    List Nat → Option (Nat × Nat)
  | [] => some (off, 0)
  | len :: rest =>
      let w := write_at off len
      if w = len then
        match writeLoop write_at (off + w) rest with
        | some next => some (next.1, w + next.2)
        | none => none
      else none

/-- `OSInode::write`: run the loop from the handle's cursor; on success
the cursor becomes the loop's final offset and the total is returned. -/
def OSInode.write (write_at : Nat → Nat → Nat) (f : OSInode) (bufs : List Nat) :
    Option (Nat × OSInode) :=
  match writeLoop write_at f.offset bufs with
  | some next => some (next.2, { f with offset := next.1 })
  | none => none

/-! ## The free operations `open_file`, `link_file`, `unlink_file` -/

/-- `open_file`: decode the flags; with CREATE, clear a found inode or
ask the engine to create one; without CREATE, wrap a found inode
(clearing it first when TRUNC is set); absence otherwise. -/
def open_file (st : SysState) (name : String) (flags : Nat) :
    Option OSInode × SysState :=
  let rw := OpenFlags.read_write flags
  if OpenFlags.hasFlag flags OpenFlags.CREATE then
    match st.engine.resolve name with
    | some id =>
        (some (OSInode.new rw.1 rw.2 id), { st with engine := st.engine.clear id })
    | none =>
        match st.engine.create name with
        | some (id, e) => (some (OSInode.new rw.1 rw.2 id), { st with engine := e })
        | none => (none, st)
  else
    match st.engine.resolve name with
    | some id =>
        let e :=
          if OpenFlags.hasFlag flags OpenFlags.TRUNC then st.engine.clear id
          else st.engine
        (some (OSInode.new rw.1 rw.2 id), { st with engine := e })
    | none => (none, st)

/-- `link_file(old_name, new_name)`: reject `old == new`; resolve the
old name; ask the engine's `create_link`; on success read the count
keyed by the returned inode's id (absence is 1) and store count+1 keyed
by the old inode's id; report 0 on success, -1 otherwise. -/
def link_file (st : SysState) (old_name new_name : String) : Int × SysState :=
  if old_name = new_name then (-1, st)
  else
    match st.engine.resolve old_name with
    | some oldId =>
        match st.engine.create_link new_name oldId with
        | some (newId, e) =>
            let old_count := (mapGet st.linkMap newId).getD 1
            (0, { engine := e,
                  linkMap := mapInsert st.linkMap oldId (u32add1 old_count) })
        | none => (-1, st)
    | none => (-1, st)

/-- `unlink_file(file_name)`: resolve the name, flag it removed on the
engine, read the count for the inode's id (absence is 1), store
count-1 (wrapping `u32` subtraction), and remove the entry entirely
when the pre-decrement count was zero; report 0, or -1 when the name
does not resolve. -/
def unlink_file (st : SysState) (file_name : String) : Int × SysState :=
  match st.engine.resolve file_name with
  | some id =>
      let e := st.engine.unlink file_name
      let old_count := (mapGet st.linkMap id).getD 1
      let m1 := mapInsert st.linkMap id (u32sub1 old_count)
      let m2 := if old_count = 0 then mapRemove m1 id else m1
      (0, { engine := e, linkMap := m2 })
  | none => (-1, st)

/-! ## Sample states for concrete evaluation -/

/-- A concrete engine: one name `a` resolving to inode 7, every file of
size 5, no directories, creation always refused. -/
def engA : Engine :=
  { resolve := fun n => if n = "a" then some 7 else none
    size := fun _ => 5
    isDir := fun _ => false
    removed := fun _ => false
    createNew := fun _ => none }

/-- `engA` with an empty Link-Count Table. -/
def stA : SysState := { engine := engA, linkMap := [] }

/-- `engA` with the Link-Count Table recording count 0 for inode 7. -/
def stB : SysState := { engine := engA, linkMap := [(7, 0)] }

/-- A concrete engine that creates any unknown name as inode 9. -/
def engC : Engine :=
  { resolve := fun n => if n = "a" then some 7 else none
    size := fun _ => 5
    isDir := fun _ => false
    removed := fun _ => false
    createNew := fun _ => some 9 }

/-- `engC` with an empty Link-Count Table. -/
def stC : SysState := { engine := engC, linkMap := [] }

/-! ## Claims -/

/-- Claim C7: `link_file(A, A)` returns -1 immediately, with no engine
mutation (no `create_link` call) and no change to the Link-Count Table:
the entire state is returned unchanged. -/
theorem link_file_self_rejected (st : SysState) (name : String) :
    link_file st name name = (-1, st) := by
  simp [link_file]

/-- Claim C9: `open_file` never mutates the Link-Count Table: whatever
the name, the flags, and whether a handle or absence is returned, the
table after the call is identical to the table before it. -/
theorem open_file_preserves_linkMap (st : SysState) (name : String) (flags : Nat) :
    (open_file st name flags).2.linkMap = st.linkMap := by
  unfold open_file
  cases hc : OpenFlags.hasFlag flags OpenFlags.CREATE <;>
    cases hr : st.engine.resolve name <;>
      simp [hc, hr]
  cases h2 : st.engine.create name with
  | none => simp
  | some p => obtain ⟨i, e⟩ := p; simp

/-- Claim C10: `OSInode::stat` always returns `Some` status record, in
every state of the Link-Count Table and for every handle; the `None`
branch of its `Option` return type is never produced. -/
theorem stat_always_some (st : SysState) (f : OSInode) :
    (OSInode.stat st f).isSome = true := by
  simp [OSInode.stat]

/-- Claim C3, counterexample: the flag set `CREATE` (`1 << 9 = 512`) is
nonempty and has both the write-only and read-write bits absent, yet
`read_write` decodes it to (true, true), not (true, false) as the claim
states. -/
theorem read_write_cex :
    (512 : Nat) ≠ 0 ∧
    OpenFlags.hasFlag 512 OpenFlags.WRONLY = false ∧
    OpenFlags.hasFlag 512 OpenFlags.RDWR = false ∧
    OpenFlags.read_write 512 ≠ (true, false) := by
  decide

/-- Claim C3, amended: `read_write` yields (true, false) only when the
flag set is entirely empty; (false, true) whenever the write-only bit
is set; and (true, true) in every other nonempty case — including sets
holding only the create or truncate bits — with malformed combinations
resolved silently by this precedence order. -/
theorem read_write_amended (fl : Nat) :
    (fl = 0 → OpenFlags.read_write fl = (true, false)) ∧
    (OpenFlags.hasFlag fl OpenFlags.WRONLY = true →
      OpenFlags.read_write fl = (false, true)) ∧
    (fl ≠ 0 → OpenFlags.hasFlag fl OpenFlags.WRONLY = false →
      OpenFlags.read_write fl = (true, true)) := by
  refine ⟨fun h => by simp [OpenFlags.read_write, h], fun h => ?_, fun h1 h2 => ?_⟩
  · have hne : fl ≠ 0 := by
      intro h0
      subst h0
      exact absurd h (by decide)
    simp [OpenFlags.read_write, hne, h]
  · simp [OpenFlags.read_write, h1, h2]

/-- Claim C3, witness: the set `CREATE | TRUNC` (1536) is nonempty with
the write-only bit absent and decodes to (true, true). -/
theorem read_write_amended_w :
    OpenFlags.read_write 1536 = (true, true) :=
  (read_write_amended 1536).2.2 (by decide) (by decide)

/-- Claim C8: when a resolvable name's recorded Link-Count Table count
is 0, `unlink_file` computes `0 - 1` on a `u32`, wrapping to
`2^32 - 1`, and stores it before any removal of the entry: there is no
clamping at 0 and no rejection — the call still reports success 0, the
wrapped value is inserted, and only afterwards is the entry removed
(by the pre-decrement-zero branch). -/
theorem unlink_underflow (st : SysState) (name : String) (id : Nat)
    (hres : st.engine.resolve name = some id)
    (hzero : mapGet st.linkMap id = some 0) :
    u32sub1 ((mapGet st.linkMap id).getD 1) = U32MOD - 1 ∧
    u32sub1 ((mapGet st.linkMap id).getD 1) ≠ 0 ∧
    (unlink_file st name).1 = 0 ∧
    (unlink_file st name).2.linkMap =
      mapRemove (mapInsert st.linkMap id (U32MOD - 1)) id := by
  have h0 : (mapGet st.linkMap id).getD 1 = 0 := by rw [hzero]; rfl
  have hsub : u32sub1 (0 : Nat) = U32MOD - 1 := by
    simp [u32sub1, U32MOD]
  refine ⟨by rw [h0, hsub], by rw [h0, hsub]; simp [U32MOD], ?_, ?_⟩
  · simp [unlink_file, hres]
  · simp [unlink_file, hres, h0, hsub]

/-- Claim C8, witness: in the state recording count 0 for inode 7, the
unlink of name `a` succeeds and the table update inserts `2^32 - 1`
before the entry's removal. -/
theorem unlink_underflow_w :
    (unlink_file stB "a").1 = 0 ∧
    (unlink_file stB "a").2.linkMap =
      mapRemove (mapInsert stB.linkMap 7 (U32MOD - 1)) 7 :=
  ⟨(unlink_underflow stB "a" 7 (by decide) (by decide)).2.2.1,
   (unlink_underflow stB "a" 7 (by decide) (by decide)).2.2.2⟩

/-- Claim C1, counterexample: in the state with an empty Link-Count
Table (so the count for inode 7, named `a`, is the default 1), the
unlink of `a` drops the resulting count to 0, yet the table keeps an
entry `some 0` for inode 7 — the entry is not removed — and a
subsequent stat on a handle for inode 7 reports link count 0, not the
default 1 the claim requires. -/
theorem unlink_drop_zero_cex :
    (mapGet stA.linkMap 7).getD 1 - 1 = 0 ∧
    (unlink_file stA "a").1 = 0 ∧
    mapGet (unlink_file stA "a").2.linkMap 7 = some 0 ∧
    mapGet (unlink_file stA "a").2.linkMap 7 ≠ none ∧
    (OSInode.stat (unlink_file stA "a").2 (OSInode.new true true 7)).map Stat.nlink =
      some 0 := by
  decide

/-- Claim C1, amended: `unlink_file` on a name resolving under the root
decrements the Link-Count Table entry for the resolved inode's id
(absence treated as count 1, storing count−1 with wrapping `u32`
subtraction), but removes the entry only when the *pre-decrement* count
was zero; an unlink that drops the count from 1 to 0 therefore leaves
an entry of value 0 in the table, and a subsequent stat on any handle
for that inode reports count 0, not the default 1. -/
theorem unlink_file_amended (st : SysState) (name : String) (id : Nat)
    (hres : st.engine.resolve name = some id) :
    (unlink_file st name).1 = 0 ∧
    (unlink_file st name).2.linkMap =
      (if (mapGet st.linkMap id).getD 1 = 0 then
        mapRemove (mapInsert st.linkMap id (u32sub1 ((mapGet st.linkMap id).getD 1))) id
      else
        mapInsert st.linkMap id (u32sub1 ((mapGet st.linkMap id).getD 1))) ∧
    ((mapGet st.linkMap id).getD 1 = 1 →
      mapGet (unlink_file st name).2.linkMap id = some 0 ∧
      ∀ f : OSInode, f.inode = id →
        (OSInode.stat (unlink_file st name).2 f).map Stat.nlink = some 0) := by
  have hsub : u32sub1 (1 : Nat) = 0 := by
    simp [u32sub1, U32MOD]
  refine ⟨by simp [unlink_file, hres], by simp [unlink_file, hres], fun h1 => ?_⟩
  have hmap : (unlink_file st name).2.linkMap = mapInsert st.linkMap id 0 := by
    simp [unlink_file, hres, h1, hsub]
  constructor
  · rw [hmap, mapGet_mapInsert_self]
  · intro f hf
    simp [OSInode.stat, hf, hmap, mapGet_mapInsert_self]

/-- Claim C1, witness: unlinking `a` in the empty-table state succeeds
and leaves entry 0 for inode 7. -/
theorem unlink_file_amended_w :
    (unlink_file stA "a").1 = 0 ∧
    mapGet (unlink_file stA "a").2.linkMap 7 = some 0 :=
  ⟨(unlink_file_amended stA "a" 7 (by decide)).1,
   ((unlink_file_amended stA "a" 7 (by decide)).2.2 (by decide)).1⟩

/-- Claim C2, counterexample: in the state whose Link-Count Table
records count 0 for inode 7 (reachable through the unlink
decrement-on-default path) with name `a` resolving to inode 7 and `b`
free, `link_file a b` succeeds with code 0 but the resulting table
entry for inode 7 is 1, not at least 2 as the claim states. -/
theorem link_file_count_cex :
    (link_file stB "a" "b").1 = 0 ∧
    mapGet (link_file stB "a" "b").2.linkMap 7 = some 1 ∧
    ¬ 2 ≤ (mapGet (link_file stB "a" "b").2.linkMap 7).getD 1 := by
  decide

/-- Claim C2, amended: when `old_name ≠ new_name`, `old_name` resolves
to an inode and the engine's `create_link` of `new_name` succeeds,
`link_file` returns 0 and the Link-Count Table entry for that physical
inode's id becomes its previous count (absence treated as count 1) plus
1 (wrapping `u32` addition), and stat on any handle for that inode
reports that same count; the result is at least 2 whenever the
previously recorded count, if any, was at least 1 (and below
`2^32 - 1`) — but it is 1 when the table recorded a count of 0. -/
theorem link_file_amended (st : SysState) (old_name new_name : String) (id : Nat)
    (hne : old_name ≠ new_name)
    (hold : st.engine.resolve old_name = some id)
    (hnew : st.engine.resolve new_name = none) :
    (link_file st old_name new_name).1 = 0 ∧
    mapGet (link_file st old_name new_name).2.linkMap id =
      some (u32add1 ((mapGet st.linkMap id).getD 1)) ∧
    (∀ f : OSInode, f.inode = id →
      (OSInode.stat (link_file st old_name new_name).2 f).map Stat.nlink =
        some (u32add1 ((mapGet st.linkMap id).getD 1))) ∧
    ((∀ c, mapGet st.linkMap id = some c → 1 ≤ c ∧ c < U32MOD - 1) →
      2 ≤ u32add1 ((mapGet st.linkMap id).getD 1)) := by
  have hmap : (link_file st old_name new_name).2.linkMap =
      mapInsert st.linkMap id (u32add1 ((mapGet st.linkMap id).getD 1)) := by
    simp [link_file, hne, hold, Engine.create_link, hnew]
  refine ⟨by simp [link_file, hne, hold, Engine.create_link, hnew], ?_, ?_, ?_⟩
  · rw [hmap, mapGet_mapInsert_self]
  · intro f hf
    simp [OSInode.stat, hf, hmap, mapGet_mapInsert_self]
  · intro hbound
    cases hc : mapGet st.linkMap id with
    | none =>
        simp [hc, u32add1, U32MOD]
    | some c =>
        have ⟨h1, h2⟩ := hbound c hc
        have hlt : c + 1 < U32MOD := by
          have : U32MOD - 1 + 1 ≤ U32MOD := by simp [U32MOD]
          omega
        simp only [hc, Option.getD_some, u32add1]
        rw [Nat.mod_eq_of_lt hlt]
        omega

/-- Claim C2, witness: linking `b` to `a` (inode 7) in the empty-table
state succeeds, the entry becomes 1 + 1 = 2, and 2 ≥ 2. -/
theorem link_file_amended_w :
    (link_file stA "a" "b").1 = 0 ∧
    mapGet (link_file stA "a" "b").2.linkMap 7 =
      some (u32add1 ((mapGet stA.linkMap 7).getD 1)) ∧
    2 ≤ u32add1 ((mapGet stA.linkMap 7).getD 1) :=
  ⟨(link_file_amended stA "a" "b" 7 (by decide) (by decide) (by decide)).1,
   (link_file_amended stA "a" "b" 7 (by decide) (by decide) (by decide)).2.1,
   (link_file_amended stA "a" "b" 7 (by decide) (by decide) (by decide)).2.2.2
     (fun c hc => absurd hc (by simp [stA, mapGet]))⟩

/-- Claim C4: case analysis of `open_file`.  Every produced handle has
cursor 0 and the decoded access pair.  With CREATE: a pre-existing name
is cleared (logical size reset to 0) and the same physical inode is
wrapped, preserving the inode's identity and leaving the Link-Count
Table untouched; an unfound name goes to the engine's `create`, wrapped
on success and absence on failure.  Without CREATE: a found name is
wrapped, cleared first exactly when TRUNC is set, and an unfound name
yields absence with the state unchanged. -/
theorem open_file_cases (st : SysState) (name : String) (flags : Nat) :
    (∀ f, (open_file st name flags).1 = some f →
      f.offset = 0 ∧ f.readable = (OpenFlags.read_write flags).1 ∧
      f.writable = (OpenFlags.read_write flags).2) ∧
    (OpenFlags.hasFlag flags OpenFlags.CREATE = true →
      (∀ id, st.engine.resolve name = some id →
        open_file st name flags =
          (some (OSInode.new (OpenFlags.read_write flags).1
            (OpenFlags.read_write flags).2 id),
           { st with engine := st.engine.clear id }) ∧
        (open_file st name flags).2.engine.size id = 0) ∧
      (st.engine.resolve name = none →
        (∀ id e, st.engine.create name = some (id, e) →
          open_file st name flags =
            (some (OSInode.new (OpenFlags.read_write flags).1
              (OpenFlags.read_write flags).2 id),
             { st with engine := e })) ∧
        (st.engine.create name = none →
          open_file st name flags = (none, st)))) ∧
    (OpenFlags.hasFlag flags OpenFlags.CREATE = false →
      (∀ id, st.engine.resolve name = some id →
        open_file st name flags =
          (some (OSInode.new (OpenFlags.read_write flags).1
            (OpenFlags.read_write flags).2 id),
           { st with engine :=
              if OpenFlags.hasFlag flags OpenFlags.TRUNC then st.engine.clear id
              else st.engine }) ∧
        (OpenFlags.hasFlag flags OpenFlags.TRUNC = true →
          (open_file st name flags).2.engine.size id = 0)) ∧
      (st.engine.resolve name = none →
        open_file st name flags = (none, st))) := by
  refine ⟨?_, fun hc => ⟨fun id hid => ?_, fun hn => ⟨fun id e hce => ?_, fun hce => ?_⟩⟩,
    fun hc => ⟨fun id hid => ?_, fun hn => ?_⟩⟩
  · intro f hf
    unfold open_file at hf
    cases hc : OpenFlags.hasFlag flags OpenFlags.CREATE <;>
      cases hr : st.engine.resolve name <;>
        simp [hc, hr] at hf <;>
          try (subst hf; exact ⟨rfl, rfl, rfl⟩)
    cases h2 : st.engine.create name with
    | none => simp [h2] at hf
    | some p =>
        obtain ⟨i, e⟩ := p
        simp [h2] at hf
        subst hf
        exact ⟨rfl, rfl, rfl⟩
  · constructor
    · simp [open_file, hc, hid]
    · simp [open_file, hc, hid, Engine.clear]
  · simp [open_file, hc, hn, hce]
  · simp [open_file, hc, hn, hce]
  · constructor
    · simp [open_file, hc, hid]
    · intro ht
      simp [open_file, hc, hid, ht, Engine.clear]
  · simp [open_file, hc, hn]

/-- Claim C4, witness: opening the pre-existing name `a` (inode 7) with
the CREATE flag wraps inode 7 with cursor 0 and resets its logical size
to zero. -/
theorem open_file_cases_w :
    open_file stA "a" 512 =
      (some (OSInode.new (OpenFlags.read_write 512).1
        (OpenFlags.read_write 512).2 7),
       { stA with engine := stA.engine.clear 7 }) ∧
    (open_file stA "a" 512).2.engine.size 7 = 0 :=
  ((open_file_cases stA "a" 512).2.1 (by decide)).1 7 (by decide)

/-- Unfolding of the read loop on a slice the engine fills with a
nonzero byte count. -/
theorem readLoop_cons (read_at : Nat → Nat → Nat) (off len : Nat) (rest : List Nat)
    (h : read_at off len ≠ 0) :
    readLoop read_at off (len :: rest) =
      ((readLoop read_at (off + read_at off len) rest).1,
       read_at off len + (readLoop read_at (off + read_at off len) rest).2.1,
       read_at off len :: (readLoop read_at (off + read_at off len) rest).2.2) := by
  simp [readLoop, h]

/-- The invariant of the read loop: the final offset is the initial
offset plus the total, the total is the sum of the per-slice byte
counts actually transferred, and no more slices are touched than were
supplied. -/
theorem readLoop_spec (read_at : Nat → Nat → Nat) :
    ∀ (bufs : List Nat) (off : Nat),
      (readLoop read_at off bufs).1 = off + (readLoop read_at off bufs).2.1 ∧
      (readLoop read_at off bufs).2.1 = (readLoop read_at off bufs).2.2.sum ∧
      (readLoop read_at off bufs).2.2.length ≤ bufs.length
  | [], off => by simp [readLoop]
  | len :: rest, off => by
      by_cases h : read_at off len = 0
      · simp [readLoop, h]
      · have ih := readLoop_spec read_at rest (off + read_at off len)
        rw [readLoop_cons read_at off len rest h]
        refine ⟨?_, ?_, ?_⟩
        · dsimp only
          omega
        · dsimp only
          simp only [List.sum_cons]
          omega
        · simpa using Nat.succ_le_succ ih.2.2

/-- Claim C5: `OSInode::read` fills the destination slices in order
from the current cursor; the cursor advances by exactly the bytes
actually transferred (final cursor = initial cursor + returned total),
the returned total is the sum of the individual engine transfer counts
(never the requested amount when a short result occurred, and at most
one engine call per supplied slice), and the loop stops the moment an
engine read returns zero bytes, leaving the handle unchanged and every
remaining slice untouched whatever it is. -/
theorem osinode_read_spec (read_at : Nat → Nat → Nat) (f : OSInode) (bufs : List Nat) :
    ((OSInode.read read_at f bufs).2).offset =
      f.offset + (OSInode.read read_at f bufs).1 ∧
    (OSInode.read read_at f bufs).1 = (readLoop read_at f.offset bufs).2.2.sum ∧
    (readLoop read_at f.offset bufs).2.2.length ≤ bufs.length ∧
    (∀ len rest, read_at f.offset len = 0 →
      OSInode.read read_at f (len :: rest) = (0, f)) := by
  have h := readLoop_spec read_at bufs f.offset
  refine ⟨?_, ?_, h.2.2, ?_⟩
  · simp [OSInode.read, h.1]
  · simp [OSInode.read, h.2.1]
  · intro len rest h0
    simp [OSInode.read, readLoop, h0]

/-- Claim C5, witness: an engine at end of data (every read reports 0
bytes) stops the scatter read at the first slice, returning 0 and the
unchanged handle. -/
theorem osinode_read_spec_w :
    OSInode.read (fun _ _ => 0) (OSInode.new true true 7) [5, 3] =
      (0, OSInode.new true true 7) :=
  (osinode_read_spec (fun _ _ => 0) (OSInode.new true true 7) [5, 3]).2.2.2 5 [3] rfl

/-- The write loop under an exactly-reporting engine: it succeeds and
transfers the sum of the slice lengths, advancing the offset by the
same amount. -/
theorem writeLoop_exact (write_at : Nat → Nat → Nat)
    (hexact : ∀ off len, write_at off len = len) :
    ∀ (bufs : List Nat) (off : Nat),
      writeLoop write_at off bufs = some (off + bufs.sum, bufs.sum)
  | [], off => by simp [writeLoop]
  | len :: rest, off => by
      have ih := writeLoop_exact write_at hexact rest (off + len)
      simp [writeLoop, hexact off len, ih]
      omega

/-- Claim C6: under the precondition that the engine reports exactly
each requested length written, `OSInode::write` never hits the
short-write assertion: it returns the sum of the slice lengths and
advances the cursor by that same total.  When the engine does report a
short (or long) write for a slice, the call is a fatal assertion
failure — modelled as `none` — not a recoverable condition. -/
theorem osinode_write_spec (write_at : Nat → Nat → Nat) (f : OSInode)
    (bufs : List Nat) :
    ((∀ off len, write_at off len = len) →
      OSInode.write write_at f bufs =
        some (bufs.sum, { f with offset := f.offset + bufs.sum })) ∧
    (∀ len rest, write_at f.offset len ≠ len →
      OSInode.write write_at f (len :: rest) = none) := by
  constructor
  · intro hexact
    simp [OSInode.write, writeLoop_exact write_at hexact bufs f.offset]
  · intro len rest hshort
    simp [OSInode.write, writeLoop, hshort]

/-- Claim C6, witness: with an exactly-reporting engine, a gather write
of slices of lengths 2 and 3 from cursor 0 returns 5 and leaves the
cursor at 5. -/
theorem osinode_write_spec_w :
    OSInode.write (fun _ len => len) (OSInode.new true true 7) [2, 3] =
      some ([2, 3].sum,
        { OSInode.new true true 7 with
          offset := (OSInode.new true true 7).offset + [2, 3].sum }) :=
  (osinode_write_spec (fun _ len => len) (OSInode.new true true 7) [2, 3]).1
    (fun _ _ => rfl)

end RcoreFs
